import Mathlib

/-!
Verification development for the ZoF zvol layer
(`module/zfs/zvol.c` and `module/os/freebsd/zfs/zvol_os.c`).

Each namespace embeds, as executable Lean definitions, the slice of the C
source that one group of properties is about: per-volume admission control of
DMU I/O contexts, the suspend/resume protocol, registry lookup with its lock
discipline, I/O bounds checking, free-range handling, ZIL record-form
selection, lazy ZIL creation, and volume-size validation.  Counts and sizes
are modelled as `Nat` (they are non-negative 64-bit quantities far from
overflow in the source), signed device offsets as `Int`, locks as explicit
state fields, and calls into the external DMU/ZIL engine as oracle
parameters recording their outcome.  Theorems about the embeddings follow.
-/

/-- FreeBSD errno value `EIO_` as used by `SET_ERROR(EIO)` in the source. -/
def EIO_ : Nat := 5

/-- FreeBSD errno value `ENXIO_`. -/
def ENXIO_ : Nat := 6

/-- FreeBSD errno value `EBUSY`. -/
def EBUSY : Nat := 16

/-- FreeBSD errno value `EINVAL`. -/
def EINVAL : Nat := 22

/-- FreeBSD errno value `EROFS`. -/
def EROFS : Nat := 30

/-- FreeBSD errno value `EINPROGRESS`, returned by the non-blocking arrival
path when an I/O context is deferred or continues asynchronously. -/
def EINPROGRESS : Nat := 36

/-- FreeBSD errno value `EOPNOTSUPP`. -/
def EOPNOTSUPP : Nat := 45

/-- Device block size `DEV_BSIZE`. -/
def DEV_BSIZE : Nat := 512

namespace Admission

/-- The per-context fields of `zvol_dmu_state_t` that the arrival path
`zvol_dmu_ctx_init` reads or writes.  `zds_id` identifies the context in the
model (standing for the context pointer stored in `zv_deferred`);
`zds_reader` is `DMU_CTX_FLAG_READ`. -/
structure Zds where
  zds_id : Nat
  zds_retry : Bool
  zds_reader : Bool
  zds_off : Nat
  zds_io_size : Nat
  zds_sync : Bool
deriving DecidableEq

/-- The per-volume fields of `zvol_state_t` used by the admission-control
path: geometry, flags, the active-context count `zv_active`, the deferred
queue `zv_deferred` (context ids, head = next to pop), and the suspend
reference count `zv_suspend_ref`. -/
structure ZvState where
  zv_volsize : Nat
  zv_rdonly : Bool
  os_sync_always : Bool
  zv_active : Nat
  zv_deferred : List Nat
  zv_suspend_ref : Nat
deriving DecidableEq

/-- Externally visible operations performed by `zvol_dmu_ctx_init` after the
checks, in program order: the `dmu_ctx_init` engine call, asynchronous
range-lock acquisition for readers, entry into the write path
(`zvol_dmu_ctx_init_write`), the error callback, and re-dispatch of a popped
deferred context. -/
inductive CtxAct
| dmu_ctx_init_call (off len : Nat)
| rangelock_tryenter_async (off len : Nat) (writer : Bool)
| write_path (off len : Nat)
| err_cb
| dispatch (id : Nat)
deriving DecidableEq

/-- Result of one `zvol_dmu_ctx_init` call: the volume state after the call,
the context fields after the call, the returned error, and the externally
visible operations it performed. -/
structure CtxRes where
  st : ZvState
  zds : Zds
  err : Nat
  acts : List CtxAct
deriving DecidableEq

/-- Outcomes of the external engine calls made on the non-deferred path:
the `dmu_ctx_init` return value, and whether the reader range lock is granted
later (`EINPROGRESS`) rather than synchronously. -/
structure CtxEnv where
  dmu_ctx_init_err : Nat
  rl_read_inprogress : Bool
deriving DecidableEq

/-- Embedding of `zvol_dmu_max_active` (zvol.c:1866-1870):
`zv->zv_active >= boot_ncpus`. -/
def zvol_dmu_max_active (boot_ncpus : Nat) (s : ZvState) : Bool :=
  decide (boot_ncpus ≤ s.zv_active)

/-- Embedding of the body of `zvol_dmu_ctx_init_deferred` (zvol.c:1745-1767)
under `zv_state_lock`: pop the head of `zv_deferred` and re-dispatch it with
`zds_retry` set (returned as `some id`), or, when the queue is empty, drop one
active slot (`zv->zv_active--`). -/
def zvol_dmu_ctx_init_deferred (s : ZvState) : ZvState × Option Nat :=
  match s.zv_deferred with
  | zds :: rest => ({ s with zv_deferred := rest }, some zds)
  | [] => ({ s with zv_active := s.zv_active - 1 }, none)

/-- Embedding of `zvol_dmu_err` (zvol.c:1769-1777): run the error callback,
then release the caller's slot via `zvol_dmu_ctx_init_deferred`. -/
def zvol_dmu_err (s : ZvState) : ZvState × List CtxAct :=
  let p := zvol_dmu_ctx_init_deferred s
  (p.1, CtxAct.err_cb :: (match p.2 with
    | some id => [CtxAct.dispatch id]
    | none => []))

/-- Embedding of `zvol_dmu_ctx_init` (zvol.c:1884-1957).  A fresh context
(`zds_retry = false`) first takes a suspend reference; `zds_sync` absorbs the
volume `sync=always` policy for writes; writes to a read-only volume and
positive-length I/O starting at or past `zv_volsize` are rejected with `EIO_`
before any engine or lock operation; a fresh context is then either granted an
active slot (`zv_active++`) or appended to the tail of `zv_deferred` with
`EINPROGRESS`; granted contexts have their size clipped to the end of the
volume and proceed into `dmu_ctx_init` and the reader/writer pipeline. -/
def zvol_dmu_ctx_init (boot_ncpus : Nat) (env : CtxEnv) (zds0 : Zds)
    (s0 : ZvState) : CtxRes :=
  let s1 := if zds0.zds_retry then s0
            else { s0 with zv_suspend_ref := s0.zv_suspend_ref + 1 }
  let zds1 := { zds0 with
    zds_sync := zds0.zds_sync || (!zds0.zds_reader && s1.os_sync_always) }
  -- `err` is non-zero at the check point exactly when one of the two
  -- `SET_ERROR(EIO)` assignments fired, so `if (err)` is the disjunction.
  if (!zds1.zds_reader && s1.zv_rdonly) ||
     (decide (0 < zds1.zds_io_size) && decide (s1.zv_volsize ≤ zds1.zds_off)) then
    if zds1.zds_retry then
      let p := zvol_dmu_err s1
      { st := p.1, zds := zds1, err := EIO_, acts := p.2 }
    else
      { st := s1, zds := zds1, err := EIO_, acts := [] }
  else if !zds1.zds_retry && zvol_dmu_max_active boot_ncpus s1 then
    { st := { s1 with zv_deferred := s1.zv_deferred ++ [zds1.zds_id] },
      zds := zds1, err := EINPROGRESS, acts := [] }
  else
    let s2 := if zds1.zds_retry then s1
              else { s1 with zv_active := s1.zv_active + 1 }
    let zds2 := { zds1 with
      zds_io_size := min zds1.zds_io_size (s2.zv_volsize - zds1.zds_off) }
    if env.dmu_ctx_init_err ≠ 0 then
      let p := zvol_dmu_err s2
      { st := p.1, zds := zds2, err := env.dmu_ctx_init_err,
        acts := CtxAct.dmu_ctx_init_call zds2.zds_off zds2.zds_io_size :: p.2 }
    else if zds2.zds_reader then
      { st := s2, zds := zds2,
        err := if env.rl_read_inprogress then EINPROGRESS else 0,
        acts := [CtxAct.dmu_ctx_init_call zds2.zds_off zds2.zds_io_size,
                 CtxAct.rangelock_tryenter_async zds2.zds_off zds2.zds_io_size
                   false] }
    else
      { st := s2, zds := zds2, err := EINPROGRESS,
        acts := [CtxAct.dmu_ctx_init_call zds2.zds_off zds2.zds_io_size,
                 CtxAct.write_path zds2.zds_off zds2.zds_io_size] }

/-- Volume states reachable through the admission-control protocol: start
with no active and no deferred contexts, then interleave context arrivals
(`zvol_dmu_ctx_init`, with any engine outcomes) and slot releases
(`zvol_dmu_ctx_init_deferred`, called from `zvol_dmu_issue` or `zvol_dmu_err`
by a context holding a slot, whence `0 < zv_active`). -/
inductive Reach (boot_ncpus : Nat) : ZvState → Prop
| init (s : ZvState) (h_active : s.zv_active = 0) (h_def : s.zv_deferred = []) :
    Reach boot_ncpus s
| ctx_init (env : CtxEnv) (zds : Zds) {s : ZvState} (h : Reach boot_ncpus s) :
    Reach boot_ncpus (zvol_dmu_ctx_init boot_ncpus env zds s).st
| issue_done {s : ZvState} (h : Reach boot_ncpus s) (hpos : 0 < s.zv_active) :
    Reach boot_ncpus (zvol_dmu_ctx_init_deferred s).1

/-- Admission-control invariant of a volume state: the active-context count
never exceeds the limit, and contexts are deferred only while the limit is
fully used. -/
def AdmInv (boot_ncpus : Nat) (s : ZvState) : Prop :=
  s.zv_active ≤ boot_ncpus ∧ (s.zv_deferred ≠ [] → s.zv_active = boot_ncpus)

lemma admInv_deferred {n : Nat} {s : ZvState} (h : AdmInv n s) :
    AdmInv n (zvol_dmu_ctx_init_deferred s).1 := by
  obtain ⟨h1, h2⟩ := h
  cases hd : s.zv_deferred with
  | nil =>
    constructor
    · simp only [zvol_dmu_ctx_init_deferred, hd]
      omega
    · simp [zvol_dmu_ctx_init_deferred, hd]
  | cons a t =>
    have ha : s.zv_active = n := h2 (by simp [hd])
    constructor
    · simp only [zvol_dmu_ctx_init_deferred, hd]
      omega
    · intro _
      simpa [zvol_dmu_ctx_init_deferred, hd] using ha

lemma admInv_err {n : Nat} {s : ZvState} (h : AdmInv n s) :
    AdmInv n (zvol_dmu_err s).1 :=
  admInv_deferred h

lemma admInv_ctx_init {n : Nat} (env : CtxEnv) (zds : Zds) {s : ZvState}
    (h : AdmInv n s) : AdmInv n (zvol_dmu_ctx_init n env zds s).st := by
  obtain ⟨h1, h2⟩ := h
  cases hretry : zds.zds_retry with
  | true =>
    simp [zvol_dmu_ctx_init, hretry]
    split_ifs <;>
      first
      | exact admInv_err ⟨h1, h2⟩
      | exact ⟨h1, h2⟩
  | false =>
    simp [zvol_dmu_ctx_init, hretry]
    split_ifs with hb hmax
    · exact ⟨h1, h2⟩
    · -- deferred-queue branch: the guard gives `n ≤ zv_active`
      have hn : n ≤ s.zv_active := by
        simpa [zvol_dmu_max_active] using hmax
      refine ⟨h1, fun _ => ?_⟩
      show s.zv_active = n
      omega
    all_goals
      have hn : ¬ n ≤ s.zv_active := by
        simpa [zvol_dmu_max_active] using hmax
    all_goals
      have hs2 : AdmInv n { s with zv_suspend_ref := s.zv_suspend_ref + 1,
                                   zv_active := s.zv_active + 1 } := by
        refine ⟨?_, fun hne => absurd (h2 hne) (by omega)⟩
        show s.zv_active + 1 ≤ n
        omega
    all_goals
      first
      | exact admInv_err hs2
      | exact hs2

/-- Claim C1: on arrival of a fresh (non-retry) I/O context with no
pre-admission error, if `zv_active < boot_ncpus` the count is incremented and
the context proceeds into the pipeline at once; otherwise the context is
appended to the tail of `zv_deferred` and the call returns `EINPROGRESS`
having performed no further work; and in every reachable volume state
`zv_active ≤ boot_ncpus`, with `zv_deferred` non-empty only when
`zv_active = boot_ncpus`. -/
theorem zvol_dmu_ctx_init_admission_control (boot_ncpus : Nat) :
    (∀ (env : CtxEnv) (zds : Zds) (s : ZvState),
      zds.zds_retry = false →
      (zds.zds_reader = true ∨ s.zv_rdonly = false) →
      (zds.zds_io_size = 0 ∨ zds.zds_off < s.zv_volsize) →
      ((env.dmu_ctx_init_err = 0 → s.zv_active < boot_ncpus →
          (zvol_dmu_ctx_init boot_ncpus env zds s).st.zv_active
            = s.zv_active + 1 ∧
          (zvol_dmu_ctx_init boot_ncpus env zds s).st.zv_deferred
            = s.zv_deferred ∧
          (zvol_dmu_ctx_init boot_ncpus env zds s).acts.head?
            = some (CtxAct.dmu_ctx_init_call zds.zds_off
                (min zds.zds_io_size (s.zv_volsize - zds.zds_off)))) ∧
       (boot_ncpus ≤ s.zv_active →
          (zvol_dmu_ctx_init boot_ncpus env zds s).err = EINPROGRESS ∧
          (zvol_dmu_ctx_init boot_ncpus env zds s).st.zv_deferred
            = s.zv_deferred ++ [zds.zds_id] ∧
          (zvol_dmu_ctx_init boot_ncpus env zds s).st.zv_active
            = s.zv_active ∧
          (zvol_dmu_ctx_init boot_ncpus env zds s).acts = []))) ∧
    (∀ s : ZvState, Reach boot_ncpus s →
      s.zv_active ≤ boot_ncpus ∧
      (s.zv_deferred ≠ [] → s.zv_active = boot_ncpus)) := by
  constructor
  · intro env zds s hretry hrw hbounds
    have hb : ((!zds.zds_reader && s.zv_rdonly) ||
        (decide (0 < zds.zds_io_size) &&
         decide (s.zv_volsize ≤ zds.zds_off))) = false := by
      rcases hrw with h | h <;> rcases hbounds with h2 | h2 <;>
        simp [h, h2, decide_eq_false_iff_not]
    constructor
    · intro henv hlt
      have hmax : decide (boot_ncpus ≤ s.zv_active) = false := by
        simp; omega
      have hnb : ¬ (0 < zds.zds_io_size ∧ s.zv_volsize ≤ zds.zds_off) := by
        rcases hbounds with h2 | h2
        · exact fun hc => by omega
        · exact fun hc => by omega
      cases hrd : zds.zds_reader with
      | true =>
        simp [zvol_dmu_ctx_init, hretry, hrd, henv, zvol_dmu_max_active,
          hmax, hnb]
      | false =>
        have hro : s.zv_rdonly = false := by
          rcases hrw with h | h
          · rw [hrd] at h; cases h
          · exact h
        simp [zvol_dmu_ctx_init, hretry, hrd, hro, henv,
          zvol_dmu_max_active, hmax, hnb]
    · intro hge
      have hmax : decide (boot_ncpus ≤ s.zv_active) = true := by
        simpa using hge
      simp [zvol_dmu_ctx_init, hretry, hb, zvol_dmu_max_active, hmax]
  · intro s hs
    induction hs with
    | init s h1 h2 => exact ⟨by omega, fun hne => (hne h2).elim⟩
    | ctx_init env zds h ih => exact admInv_ctx_init env zds ih
    | issue_done h hpos ih => exact admInv_deferred ih

/-- Witness for C1 at `boot_ncpus = 2`: a read context arriving at an idle
volume of size 4096 is granted a slot, and the initial state satisfies the
invariant. -/
theorem zvol_dmu_ctx_init_admission_control_witness :
    (zvol_dmu_ctx_init 2 ⟨0, false⟩ ⟨7, false, true, 0, 512, false⟩
      ⟨4096, false, false, 0, [], 0⟩).st.zv_active = 0 + 1 ∧
    (⟨4096, false, false, 0, [], 0⟩ : ZvState).zv_active ≤ 2 :=
  ⟨(((zvol_dmu_ctx_init_admission_control 2).1 ⟨0, false⟩
      ⟨7, false, true, 0, 512, false⟩ ⟨4096, false, false, 0, [], 0⟩
      rfl (Or.inl rfl) (Or.inr (by decide))).1 rfl (by decide)).1,
   ((zvol_dmu_ctx_init_admission_control 2).2 ⟨4096, false, false, 0, [], 0⟩
      (Reach.init _ rfl rfl)).1⟩

/-- Definition following the spec's words, for comparison with the code: on
any context's completion, decrement `active_contexts`, then pop the head of
`deferred_queue` (FIFO) and admit it (the promoted context takes an active
slot again), continuing its pipeline from where it left off. -/
def spec_on_completion (s : ZvState) : ZvState × Option Nat :=
  let s1 := { s with zv_active := s.zv_active - 1 }
  match s1.zv_deferred with
  | [] => (s1, none)
  | h :: t =>
    ({ s1 with zv_active := s1.zv_active + 1, zv_deferred := t }, some h)

/-- Queue discipline of `zv_deferred` together with its histories:
contexts are deferred with `list_insert_tail` (zvol.c:1880 and zvol.c:1927)
and promoted with `list_remove_head` (zvol.c:1752).  `QReach q e p` relates a
reachable queue `q` to `e`, every id ever deferred in arrival order, and `p`,
every id promoted in promotion order. -/
inductive QReach : List Nat → List Nat → List Nat → Prop
| init : QReach [] [] []
| insert_tail (id : Nat) {q e p : List Nat} (h : QReach q e p) :
    QReach (q ++ [id]) (e ++ [id]) p
| remove_head {id : Nat} {q e p : List Nat} (h : QReach (id :: q) e p) :
    QReach q e (p ++ [id])

/-- Claim C2: the slot-release step `zvol_dmu_ctx_init_deferred` performed on
completion computes exactly the spec's decrement-then-pop-and-admit step, the
promoted context is the head of the deferred queue, and since arrivals append
at the tail and promotions pop at the head, the promotion history is always a
prefix of the arrival history: deferred contexts are promoted in exactly
their arrival order. -/
theorem zvol_dmu_ctx_init_deferred_fifo :
    (∀ s : ZvState, 0 < s.zv_active →
      zvol_dmu_ctx_init_deferred s = spec_on_completion s ∧
      (zvol_dmu_ctx_init_deferred s).2 = s.zv_deferred.head?) ∧
    (∀ q e p : List Nat, QReach q e p → e = p ++ q) := by
  constructor
  · intro s hpos
    obtain ⟨v, r, sy, a, d, ref⟩ := s
    cases d with
    | nil =>
      simp [zvol_dmu_ctx_init_deferred, spec_on_completion]
    | cons x t =>
      simp at hpos
      simp [zvol_dmu_ctx_init_deferred, spec_on_completion]
      omega
  · intro q e p h
    induction h with
    | init => rfl
    | insert_tail id h ih => simp [ih]
    | remove_head h ih => simpa using ih

/-- Witness for C2: a volume with one active slot and deferred queue `[3, 9]`
promotes context 3, exactly as the spec's step does, and the two-arrival
one-promotion history `e = [3, 9]`, `p = [3]` satisfies `e = p ++ q`. -/
theorem zvol_dmu_ctx_init_deferred_fifo_witness :
    zvol_dmu_ctx_init_deferred ⟨4096, false, false, 1, [3, 9], 2⟩
      = spec_on_completion ⟨4096, false, false, 1, [3, 9], 2⟩ ∧
    ([3, 9] : List Nat) = [3] ++ [9] :=
  ⟨(zvol_dmu_ctx_init_deferred_fifo.1 ⟨4096, false, false, 1, [3, 9], 2⟩
      (by decide)).1,
   zvol_dmu_ctx_init_deferred_fifo.2 [9] [3, 9] [3]
     (QReach.remove_head
       (QReach.insert_tail 9 (QReach.insert_tail 3 QReach.init)))⟩

end Admission

namespace Lifecycle

/-- Lifecycle state of one volume as seen by I/O arrival and minor removal:
`zv_active` slot holders, the deferred-queue contents, `draining` contexts
(past their slot release, before their final completion callback releases the
suspend reference), `zv_suspend_ref`, `zv_open_count`, and whether the volume
is still present in the registry. -/
structure LcState where
  zv_active : Nat
  zv_deferred : List Nat
  draining : Nat
  zv_suspend_ref : Nat
  zv_open_count : Nat
  present : Bool
deriving DecidableEq

/-- Embedding of the arrival of a fresh context through `zvol_dmu_ctx_init`
(zvol.c:1896-1934): the suspend reference is taken first (`atomic_inc` at
line 1901, before the context is queued or executed), then the context is
either appended to `zv_deferred` or granted an active slot. -/
def lc_ctx_init_arrival (boot_ncpus id : Nat) (s : LcState) : LcState :=
  let s1 := { s with zv_suspend_ref := s.zv_suspend_ref + 1 }
  if boot_ncpus ≤ s1.zv_active then
    { s1 with zv_deferred := s1.zv_deferred ++ [id] }
  else
    { s1 with zv_active := s1.zv_active + 1 }

/-- Embedding of `zvol_dmu_ctx_init_enqueue` (zvol.c:1872-1882): take a
suspend reference (`atomic_inc`, line 1879), then insert the context at the
tail of `zv_deferred`. -/
def zvol_dmu_ctx_init_enqueue (id : Nat) (s : LcState) : LcState :=
  { s with zv_suspend_ref := s.zv_suspend_ref + 1,
           zv_deferred := s.zv_deferred ++ [id] }

/-- Slot release (`zvol_dmu_ctx_init_deferred`, zvol.c:1745-1767) performed
by a slot-holding context from `zvol_dmu_issue` or `zvol_dmu_err`: the head
of the queue takes over the slot, or the slot count drops; the caller then
awaits its completion callback, so it joins `draining` still holding its
suspend reference. -/
def lc_issue_done (s : LcState) : LcState :=
  match s.zv_deferred with
  | _ :: rest => { s with zv_deferred := rest, draining := s.draining + 1 }
  | [] => { s with zv_active := s.zv_active - 1, draining := s.draining + 1 }

/-- Modelled from the spec: `zvol_rele`, called on the completion paths of
zvol_os.c (`zvol_strategy_done`, `zvol_commit_done`); its body is not under
src/.  Spec 4.4-4.5: contexts hold one `suspend_refs` count each from
admission to completion, and completion decrements it.  The context leaves
`draining` and drops its suspend reference. -/
def zvol_rele (s : LcState) : LcState :=
  { s with zv_suspend_ref := s.zv_suspend_ref - 1,
           draining := s.draining - 1 }

/-- Embedding of the per-volume body of `zvol_remove_minors_impl`
(zvol.c:1227-1266) for a name-matching volume: under `zv_state_lock`, if
`zv_open_count > 0` or `zv_suspend_ref` is non-zero the volume is left alone
(lines 1241-1245); otherwise it is removed from the registry and freed. -/
def zvol_remove_minors_impl (s : LcState) : LcState :=
  if 0 < s.zv_open_count ∨ s.zv_suspend_ref ≠ 0 then s
  else { s with present := false }

/-- Opening a handle on a present volume (`zv_open_count++`). -/
def lc_open (s : LcState) : LcState :=
  { s with zv_open_count := s.zv_open_count + 1 }

/-- Closing a handle (`zv_open_count--`). -/
def lc_close (s : LcState) : LcState :=
  { s with zv_open_count := s.zv_open_count - 1 }

/-- Volume lifecycle states reachable from a fresh minor: arrivals (only on a
present volume), enqueues from `zvol_geom_bio_async` (which fires only with
the queue limit reached and more than one active context), slot releases by
active contexts, completion callbacks, open/close, and removal attempts. -/
inductive LcReach (boot_ncpus : Nat) : LcState → Prop
| init : LcReach boot_ncpus ⟨0, [], 0, 0, 0, true⟩
| arrival (id : Nat) {s : LcState} (h : LcReach boot_ncpus s)
    (hp : s.present = true) : LcReach boot_ncpus (lc_ctx_init_arrival boot_ncpus id s)
| enqueue (id : Nat) {s : LcState} (h : LcReach boot_ncpus s)
    (hp : s.present = true) (hq : boot_ncpus ≤ s.zv_active ∧ 1 < s.zv_active) :
    LcReach boot_ncpus (zvol_dmu_ctx_init_enqueue id s)
| issue_done {s : LcState} (h : LcReach boot_ncpus s)
    (hpos : 0 < s.zv_active) : LcReach boot_ncpus (lc_issue_done s)
| rele {s : LcState} (h : LcReach boot_ncpus s) (hdr : 0 < s.draining) :
    LcReach boot_ncpus (zvol_rele s)
| open_handle {s : LcState} (h : LcReach boot_ncpus s)
    (hp : s.present = true) : LcReach boot_ncpus (lc_open s)
| close_handle {s : LcState} (h : LcReach boot_ncpus s)
    (hoc : 0 < s.zv_open_count) : LcReach boot_ncpus (lc_close s)
| remove {s : LcState} (h : LcReach boot_ncpus s) :
    LcReach boot_ncpus (zvol_remove_minors_impl s)

/-- Lifecycle invariant: the suspend reference count accounts exactly for the
queued, slot-holding and draining contexts, and a removed volume has none
of them. -/
def LcInv (s : LcState) : Prop :=
  s.zv_suspend_ref = s.zv_active + s.zv_deferred.length + s.draining ∧
  (s.present = false → s.zv_active = 0 ∧ s.zv_deferred = [])

lemma lcInv_reach {n : Nat} {s : LcState} (h : LcReach n s) : LcInv s := by
  induction h with
  | init => exact ⟨rfl, by simp⟩
  | @arrival id s h hp ih =>
    obtain ⟨i1, i2⟩ := ih
    simp only [lc_ctx_init_arrival]
    split_ifs
    · exact ⟨by simp [i1] <;> omega, by simp [hp]⟩
    · exact ⟨by simp [i1] <;> omega, by simp [hp]⟩
  | @enqueue id s h hp hq ih =>
    obtain ⟨i1, i2⟩ := ih
    exact ⟨by simp [zvol_dmu_ctx_init_enqueue, i1] <;> omega,
           by simp [zvol_dmu_ctx_init_enqueue, hp]⟩
  | @issue_done s h hpos ih =>
    obtain ⟨i1, i2⟩ := ih
    cases hd : s.zv_deferred with
    | nil =>
      refine ⟨by simp [lc_issue_done, hd, i1] <;> omega, fun hnp => ?_⟩
      have hsp : s.present = false := by
        simpa [lc_issue_done, hd] using hnp
      exact absurd (i2 hsp).1 (by omega)
    | cons x t =>
      refine ⟨?_, fun hnp => ?_⟩
      · simp [lc_issue_done, hd, i1]
        omega
      · have hsp : s.present = false := by
          simpa [lc_issue_done, hd] using hnp
        have hdc := (i2 hsp).2
        rw [hd] at hdc
        cases hdc
  | @rele s h hdr ih =>
    obtain ⟨i1, i2⟩ := ih
    refine ⟨by simp [zvol_rele, i1] <;> omega, fun hnp => ?_⟩
    have hsp : s.present = false := by simpa [zvol_rele] using hnp
    obtain ⟨j1, j2⟩ := i2 hsp
    exact ⟨by simp [zvol_rele, j1], by simp [zvol_rele, j2]⟩
  | @open_handle s h hp ih =>
    obtain ⟨i1, i2⟩ := ih
    exact ⟨by simp [lc_open, i1], by simp [lc_open, hp]⟩
  | @close_handle s h hoc ih =>
    obtain ⟨i1, i2⟩ := ih
    refine ⟨by simp [lc_close, i1], fun hnp => ?_⟩
    have hsp : s.present = false := by simpa [lc_close] using hnp
    obtain ⟨j1, j2⟩ := i2 hsp
    exact ⟨by simp [lc_close, j1], by simp [lc_close, j2]⟩
  | @remove s h ih =>
    obtain ⟨i1, i2⟩ := ih
    simp only [zvol_remove_minors_impl]
    split_ifs with hg
    · exact ⟨i1, i2⟩
    · push_neg at hg
      have hz : s.zv_suspend_ref = 0 := hg.2
      have hlen : s.zv_deferred.length = 0 := by omega
      refine ⟨by simpa using i1, fun _ => ?_⟩
      exact ⟨by simp <;> omega, by simpa using List.length_eq_zero.mp hlen⟩

/-- Claim C9: every I/O context takes a suspend reference on arrival, before
it is queued or granted a slot; in every reachable lifecycle state the
suspend reference count accounts for all queued, slot-holding and draining
contexts; and a removal attempt leaves any volume with queued or executing
I/O untouched and present in the registry. -/
theorem zvol_suspend_ref_blocks_removal (boot_ncpus : Nat) :
    (∀ (id : Nat) (s : LcState),
      (lc_ctx_init_arrival boot_ncpus id s).zv_suspend_ref
          = s.zv_suspend_ref + 1 ∧
      (zvol_dmu_ctx_init_enqueue id s).zv_suspend_ref
          = s.zv_suspend_ref + 1) ∧
    (∀ s : LcState, LcReach boot_ncpus s →
      s.zv_suspend_ref = s.zv_active + s.zv_deferred.length + s.draining ∧
      (0 < s.zv_active ∨ s.zv_deferred ≠ [] →
        zvol_remove_minors_impl s = s ∧ s.present = true)) := by
  constructor
  · intro id s
    constructor
    · simp only [lc_ctx_init_arrival]
      split_ifs <;> simp
    · simp [zvol_dmu_ctx_init_enqueue]
  · intro s hs
    obtain ⟨i1, i2⟩ := lcInv_reach hs
    refine ⟨i1, fun hio => ?_⟩
    have href : s.zv_suspend_ref ≠ 0 := by
      rcases hio with h | h
      · omega
      · have hl : s.zv_deferred.length ≠ 0 :=
          fun hl => h (List.length_eq_zero.mp hl)
        omega
    constructor
    · simp [zvol_remove_minors_impl, href]
    · by_contra hps
      have hsp : s.present = false := by
        cases hpp : s.present
        · rfl
        · exact absurd hpp hps
      obtain ⟨j1, j2⟩ := i2 hsp
      rcases hio with h | h
      · omega
      · exact h j2

/-- Witness for C9 at `boot_ncpus = 2`: after one context arrives at a fresh
volume (one active slot, one suspend reference), a removal attempt is a
no-op and the volume stays present. -/
theorem zvol_suspend_ref_blocks_removal_witness :
    zvol_remove_minors_impl ⟨1, [], 0, 1, 0, true⟩
        = (⟨1, [], 0, 1, 0, true⟩ : LcState) ∧
    (⟨1, [], 0, 1, 0, true⟩ : LcState).present = true := by
  have h0 : LcReach 2 (lc_ctx_init_arrival 2 5 ⟨0, [], 0, 0, 0, true⟩) :=
    LcReach.arrival 5 LcReach.init rfl
  have he : lc_ctx_init_arrival 2 5 ⟨0, [], 0, 0, 0, true⟩
      = (⟨1, [], 0, 1, 0, true⟩ : LcState) := by decide
  rw [he] at h0
  exact ((zvol_suspend_ref_blocks_removal 2).2 _ h0).2 (Or.inl (by decide))

end Lifecycle

namespace SuspendResume

/-- Hold state of the caller on the per-volume quiesce lock
`zv_suspend_lock`. -/
inductive RwHold
| unheld
| reader
| writer
deriving DecidableEq

/-- Per-volume state read and written by `zvol_suspend`/`zvol_resume`:
open and suspend-reference counts, the caller's hold on the quiesce lock and
the state lock, the WAL handle (`zv_zilog`), the store handle (`zv_dn`),
cached geometry and flags, and the persisted metadata they are re-derived
from (the `size` ZAP entry and the `readonly` property). -/
structure ZvS where
  zv_open_count : Nat
  zv_suspend_ref : Nat
  suspend_lock : RwHold
  state_lock : Bool
  zv_zilog : Bool
  zv_dn : Bool
  zv_volsize : Nat
  zv_rdonly : Bool
  meta_size : Nat
  meta_readonly : Bool
deriving DecidableEq

/-- Embedding of `zvol_shutdown_zv` (zvol.c:819-842): close the WAL handle
and release the dnode hold, leaving `zv_zilog` and `zv_dn` absent. -/
def zvol_shutdown_zv (s : ZvS) : ZvS :=
  { s with zv_zilog := false, zv_dn := false }

/-- Outcomes of the engine calls made by `zvol_setup_zv` and the objset and
pool facts the read-only flag is derived from:
`dsl_prop_get_integer("readonly")`, `zap_lookup(ZVOL_ZAP_OBJ, "size")` and
`dnode_hold(ZVOL_OBJ)` return values (0 = success), plus
`dmu_objset_is_snapshot` and `spa_writeable`. -/
structure SetupEnv where
  prop_err : Nat
  zap_err : Nat
  dnode_err : Nat
  is_snapshot : Bool
  spa_writeable : Bool
deriving DecidableEq

/-- Embedding of `zvol_setup_zv` (zvol.c:775-813): the WAL handle is cleared
first; then `dsl_prop_get_integer`, the `zap_lookup` of the persisted size
and `dnode_hold` run in order, and each failure returns its error without
re-binding the store handle; only on success is the dnode hold taken, the
persisted size copied into `zv_volsize`, and the read-only flag re-derived
as `readonly || snapshot || !writeable`.  Returns the error and the
resulting state. -/
def zvol_setup_zv (env : SetupEnv) (s : ZvS) : Nat × ZvS :=
  let s0 := { s with zv_zilog := false }
  if env.prop_err ≠ 0 then (env.prop_err, s0)
  else if env.zap_err ≠ 0 then (env.zap_err, s0)
  else if env.dnode_err ≠ 0 then (env.dnode_err, s0)
  else
    let ro := s.meta_readonly || env.is_snapshot || !env.spa_writeable
    (0, { s0 with zv_dn := true, zv_volsize := s.meta_size, zv_rdonly := ro })

/-- Embedding of `zvol_suspend` (zvol.c:857-886) on a successful lookup:
`zvol_find_by_name(name, RW_WRITER)` returns with the quiesce lock held in
write mode and the state lock held; the suspend reference count is then
incremented, the handles are torn down when `zv_open_count > 0`, and the
state lock is released while the quiesce lock stays write-held. -/
def zvol_suspend (s : ZvS) : ZvS :=
  let s1 := { s with suspend_lock := RwHold.writer, state_lock := true }
  let s2 := { s1 with zv_suspend_ref := s1.zv_suspend_ref + 1 }
  let s3 := if 0 < s2.zv_open_count then zvol_shutdown_zv s2 else s2
  { s3 with state_lock := false }

/-- Embedding of `zvol_resume` (zvol.c:888-919): take the state lock, run
`zvol_setup_zv` when `zv_open_count > 0` (capturing its error), release the
state lock, release the quiesce lock (held in write mode since the matching
suspend), decrement the suspend reference count, and return the setup
error. -/
def zvol_resume (env : SetupEnv) (s : ZvS) : Nat × ZvS :=
  let s1 := { s with state_lock := true }
  let p := if 0 < s1.zv_open_count then zvol_setup_zv env s1 else (0, s1)
  let s3 := { p.2 with state_lock := false }
  let s4 := { s3 with suspend_lock := RwHold.unheld }
  (p.1, { s4 with zv_suspend_ref := s4.zv_suspend_ref - 1 })

/-- Claim C3: after a successful `zvol_suspend` the suspend reference count
has grown by one, the open count is unchanged, the quiesce lock is still
write-held while the state lock has been released, and, when the volume was
open, the WAL and store handles have been torn down.  The matching
`zvol_resume` always releases the quiesce write lock and decrements the
suspend reference count; it re-binds the store handle and re-derives
geometry and flags exactly when the volume is open and the three engine
calls of `zvol_setup_zv` succeed, while any of their failures is surfaced to
the resume caller with the store handle left unbound. -/
theorem zvol_suspend_resume_protocol (env : SetupEnv) (s : ZvS)
    (hlock : s.suspend_lock = RwHold.unheld) (hst : s.state_lock = false) :
    ((zvol_suspend s).zv_suspend_ref = s.zv_suspend_ref + 1 ∧
     (zvol_suspend s).zv_open_count = s.zv_open_count ∧
     (zvol_suspend s).suspend_lock = RwHold.writer ∧
     (zvol_suspend s).state_lock = false ∧
     (0 < s.zv_open_count →
       (zvol_suspend s).zv_zilog = false ∧ (zvol_suspend s).zv_dn = false)) ∧
    ((zvol_resume env (zvol_suspend s)).2.suspend_lock = RwHold.unheld ∧
     (zvol_resume env (zvol_suspend s)).2.state_lock = false ∧
     (zvol_resume env (zvol_suspend s)).2.zv_suspend_ref = s.zv_suspend_ref ∧
     (0 < s.zv_open_count → env.prop_err = 0 → env.zap_err = 0 →
       env.dnode_err = 0 →
       (zvol_resume env (zvol_suspend s)).1 = 0 ∧
       (zvol_resume env (zvol_suspend s)).2.zv_dn = true ∧
       (zvol_resume env (zvol_suspend s)).2.zv_volsize = s.meta_size ∧
       (zvol_resume env (zvol_suspend s)).2.zv_rdonly
         = (s.meta_readonly || env.is_snapshot || !env.spa_writeable)) ∧
     (0 < s.zv_open_count →
       (env.prop_err ≠ 0 ∨ env.zap_err ≠ 0 ∨ env.dnode_err ≠ 0) →
       (zvol_resume env (zvol_suspend s)).1 ≠ 0 ∧
       (zvol_resume env (zvol_suspend s)).2.zv_dn = false) ∧
     (s.zv_open_count = 0 →
       (zvol_resume env (zvol_suspend s)).1 = 0 ∧
       (zvol_resume env (zvol_suspend s)).2.zv_dn = s.zv_dn ∧
       (zvol_resume env (zvol_suspend s)).2.zv_volsize = s.zv_volsize)) := by
  constructor
  · by_cases hoc : 0 < s.zv_open_count
    · refine ⟨?_, ?_, ?_, ?_, fun _ => ⟨?_, ?_⟩⟩ <;>
        simp [zvol_suspend, zvol_shutdown_zv, hoc]
    · refine ⟨?_, ?_, ?_, ?_, fun h => absurd h hoc⟩ <;>
        simp [zvol_suspend, zvol_shutdown_zv, hoc]
  · refine ⟨?_, ?_, ?_, fun hoc hp hz hd => ?_, fun hoc herr => ?_,
      fun hoc0 => ?_⟩
    · by_cases hoc : 0 < s.zv_open_count <;>
        by_cases hp : env.prop_err = 0 <;>
        by_cases hz : env.zap_err = 0 <;>
        by_cases hd : env.dnode_err = 0 <;>
        simp [zvol_resume, zvol_suspend, zvol_setup_zv, zvol_shutdown_zv,
          hoc, hp, hz, hd]
    · by_cases hoc : 0 < s.zv_open_count <;>
        by_cases hp : env.prop_err = 0 <;>
        by_cases hz : env.zap_err = 0 <;>
        by_cases hd : env.dnode_err = 0 <;>
        simp [zvol_resume, zvol_suspend, zvol_setup_zv, zvol_shutdown_zv,
          hoc, hp, hz, hd]
    · by_cases hoc : 0 < s.zv_open_count <;>
        by_cases hp : env.prop_err = 0 <;>
        by_cases hz : env.zap_err = 0 <;>
        by_cases hd : env.dnode_err = 0 <;>
        simp [zvol_resume, zvol_suspend, zvol_setup_zv, zvol_shutdown_zv,
          hoc, hp, hz, hd]
    · simp [zvol_resume, zvol_suspend, zvol_setup_zv, zvol_shutdown_zv,
        hoc, hp, hz, hd]
    · by_cases hp : env.prop_err = 0 <;>
        by_cases hz : env.zap_err = 0 <;>
        by_cases hd : env.dnode_err = 0 <;>
        simp_all [zvol_resume, zvol_suspend, zvol_setup_zv, zvol_shutdown_zv,
          hoc]
    · have hnoc : ¬ 0 < s.zv_open_count := by omega
      simp [zvol_resume, zvol_suspend, zvol_setup_zv, zvol_shutdown_zv, hnoc]

/-- Witness for C3: an open volume (one handle, WAL and store handles bound)
with both locks free is suspended and resumed with all engine calls
succeeding: the quiesce lock is write-held after suspend, and after resume
the reference count is back to 0 and the store handle is re-bound. -/
theorem zvol_suspend_resume_protocol_witness :
    (zvol_suspend ⟨1, 0, RwHold.unheld, false, true, true, 8192, false,
        8192, false⟩).suspend_lock = RwHold.writer ∧
    (zvol_resume ⟨0, 0, 0, false, true⟩ (zvol_suspend ⟨1, 0, RwHold.unheld,
        false, true, true, 8192, false, 8192, false⟩)).2.zv_suspend_ref
      = 0 ∧
    (zvol_resume ⟨0, 0, 0, false, true⟩ (zvol_suspend ⟨1, 0, RwHold.unheld,
        false, true, true, 8192, false, 8192, false⟩)).2.zv_dn = true :=
  ⟨(zvol_suspend_resume_protocol ⟨0, 0, 0, false, true⟩
      ⟨1, 0, RwHold.unheld, false, true, true, 8192, false, 8192, false⟩
      rfl rfl).1.2.2.1,
   (zvol_suspend_resume_protocol ⟨0, 0, 0, false, true⟩
      ⟨1, 0, RwHold.unheld, false, true, true, 8192, false, 8192, false⟩
      rfl rfl).2.2.2.1,
   ((zvol_suspend_resume_protocol ⟨0, 0, 0, false, true⟩
      ⟨1, 0, RwHold.unheld, false, true, true, 8192, false, 8192, false⟩
      rfl rfl).2.2.2.2.1 (by decide) rfl rfl rfl).2.1⟩

end SuspendResume

namespace Registry

/-- Lock mode argument of `zvol_find_by_name_hash` (`RW_NONE`, `RW_READER`,
`RW_WRITER`). -/
inductive RwMode
| RW_NONE
| RW_READER
| RW_WRITER
deriving DecidableEq

/-- One volume of the scanned hash chain: its hash and name, and the
caller's holds on its quiesce lock (`zv_suspend_lock`) and its state lock
(`zv_state_lock`). -/
structure FVol where
  zv_hash : Nat
  zv_name : String
  suspend_hold : RwMode
  state_hold : Bool
deriving DecidableEq

/-- Per-volume lock events of the scan, in program order.  (The global
registry lock `zvol_state_lock`, held in read mode across the whole scan, is
not a per-volume lock and is not recorded.) -/
inductive FEv
| mutex_enter (i : Nat)
| mutex_exit (i : Nat)
| rw_tryenter_ok (i : Nat)
| rw_tryenter_fail (i : Nat)
| rw_enter_blocking (i : Nat)
deriving DecidableEq

/-- Embedding of the `hlist_for_each` scan of `zvol_find_by_name_hash`
(zvol.c:158-195).  For each chain entry: take its state lock; on a hash and
name match, if a quiesce lock is wanted and `rw_tryenter` fails, drop the
state lock, block on the quiesce lock, re-take the state lock (the chain
cannot change since `zvol_state_lock` is held), and return the volume;
otherwise release the state lock and continue.  `tryOk i` is the outcome the
concurrent environment gives `rw_tryenter` at entry `i`.  Returns the found
volume (with the caller's holds set), the updated chain, and the event
trace. -/
def zvol_find_loop (tryOk : Nat → Bool) (name : String) (hash : Nat)
    (mode : RwMode) : Nat → List FVol → Option FVol × List FVol × List FEv
| _, [] => (none, [], [])
| i, zv :: rest =>
  if zv.zv_hash = hash ∧ zv.zv_name = name then
    if mode ≠ RwMode.RW_NONE ∧ tryOk i = false then
      let zv' := { zv with suspend_hold := mode, state_hold := true }
      (some zv', zv' :: rest,
       [FEv.mutex_enter i, FEv.rw_tryenter_fail i, FEv.mutex_exit i,
        FEv.rw_enter_blocking i, FEv.mutex_enter i])
    else
      let zv' := { zv with
        suspend_hold := if mode = RwMode.RW_NONE then zv.suspend_hold else mode,
        state_hold := true }
      (some zv', zv' :: rest,
       FEv.mutex_enter i ::
         (if mode = RwMode.RW_NONE then [] else [FEv.rw_tryenter_ok i]))
  else
    let r := zvol_find_loop tryOk name hash mode (i + 1) rest
    (r.1, zv :: r.2.1, FEv.mutex_enter i :: FEv.mutex_exit i :: r.2.2)

/-- Embedding of `zvol_find_by_name_hash` (zvol.c:158-195): scan the hash
chain from its head. -/
def zvol_find_by_name_hash (tryOk : Nat → Bool) (name : String) (hash : Nat)
    (mode : RwMode) (vols : List FVol) : Option FVol × List FVol × List FEv :=
  zvol_find_loop tryOk name hash mode 0 vols

/-- Replay of an event trace checking the lock-ordering discipline: a
blocking quiesce-lock acquisition must never happen while the same volume's
state lock is held (`held` is the list of state locks the caller holds). -/
def trace_lock_order : List FEv → List Nat → Bool
| [], _ => true
| FEv.mutex_enter i :: t, held => trace_lock_order t (i :: held)
| FEv.mutex_exit i :: t, held => trace_lock_order t (held.erase i)
| FEv.rw_tryenter_ok _ :: t, held => trace_lock_order t held
| FEv.rw_tryenter_fail _ :: t, held => trace_lock_order t held
| FEv.rw_enter_blocking i :: t, held =>
    !held.contains i && trace_lock_order t held

lemma zvol_find_loop_spec (tryOk : Nat → Bool) (name : String) (hash : Nat)
    (mode : RwMode) (vols : List FVol) :
    ∀ i : Nat,
      (∀ v ∈ vols, v.suspend_hold = RwMode.RW_NONE ∧ v.state_hold = false) →
      (((zvol_find_loop tryOk name hash mode i vols).1 = none →
         (zvol_find_loop tryOk name hash mode i vols).2.1 = vols) ∧
       (∀ zv', (zvol_find_loop tryOk name hash mode i vols).1 = some zv' →
         zv'.zv_hash = hash ∧ zv'.zv_name = name ∧
         zv'.suspend_hold = mode ∧ zv'.state_hold = true ∧
         zv' ∈ (zvol_find_loop tryOk name hash mode i vols).2.1 ∧
         ∀ v ∈ (zvol_find_loop tryOk name hash mode i vols).2.1,
           v = zv' ∨ (v.suspend_hold = RwMode.RW_NONE ∧ v.state_hold = false)) ∧
       trace_lock_order (zvol_find_loop tryOk name hash mode i vols).2.2 []
         = true) := by
  induction vols with
  | nil => intro i hinit; refine ⟨fun _ => rfl, fun zv' h => ?_, rfl⟩
           simp [zvol_find_loop] at h
  | cons zv rest ih =>
    intro i hinit
    have hzv := hinit zv (List.mem_cons_self _ _)
    have hrest : ∀ v ∈ rest, v.suspend_hold = RwMode.RW_NONE ∧
        v.state_hold = false :=
      fun v hv => hinit v (List.mem_cons_of_mem _ hv)
    by_cases hmatch : zv.zv_hash = hash ∧ zv.zv_name = name
    · by_cases hblock : mode ≠ RwMode.RW_NONE ∧ tryOk i = false
      · refine ⟨fun hnone => ?_, fun zv' hsome => ?_, ?_⟩
        · simp [zvol_find_loop, hmatch, hblock] at hnone
        · simp only [zvol_find_loop, if_pos hmatch, if_pos hblock,
            Option.some.injEq] at hsome
          subst hsome
          refine ⟨hmatch.1, hmatch.2, rfl, rfl, ?_, ?_⟩
          · simp [zvol_find_loop, hmatch, hblock]
          · intro v hv
            simp only [zvol_find_loop, if_pos hmatch, if_pos hblock,
              List.mem_cons] at hv
            rcases hv with hv | hv
            · exact Or.inl hv
            · exact Or.inr (hrest v hv)
        · simp [zvol_find_loop, hmatch, hblock, trace_lock_order]
      · refine ⟨fun hnone => ?_, fun zv' hsome => ?_, ?_⟩
        · simp [zvol_find_loop, hmatch, hblock] at hnone
        · simp only [zvol_find_loop, if_pos hmatch, if_neg hblock,
            Option.some.injEq] at hsome
          subst hsome
          refine ⟨hmatch.1, hmatch.2, ?_, rfl, ?_, ?_⟩
          · cases hmode : mode <;> simp [hmode, hzv.1]
          · simp [zvol_find_loop, hmatch, hblock]
          · intro v hv
            simp only [zvol_find_loop, if_pos hmatch, if_neg hblock,
              List.mem_cons] at hv
            rcases hv with hv | hv
            · exact Or.inl hv
            · exact Or.inr (hrest v hv)
        · cases hmode : mode with
          | RW_NONE =>
            simp [zvol_find_loop, hmatch, hblock, hmode, trace_lock_order]
          | RW_READER =>
            cases htry : tryOk i with
            | false => exact absurd ⟨by simp [hmode], htry⟩ hblock
            | true =>
              simp [zvol_find_loop, hmatch, hblock, hmode, htry,
                trace_lock_order]
          | RW_WRITER =>
            cases htry : tryOk i with
            | false => exact absurd ⟨by simp [hmode], htry⟩ hblock
            | true =>
              simp [zvol_find_loop, hmatch, hblock, hmode, htry,
                trace_lock_order]
    · obtain ⟨ih1, ih2, ih3⟩ := ih (i + 1) hrest
      refine ⟨fun hnone => ?_, fun zv' hsome => ?_, ?_⟩
      · have : (zvol_find_loop tryOk name hash mode (i + 1) rest).1 = none := by
          simpa [zvol_find_loop, hmatch] using hnone
        simp [zvol_find_loop, hmatch, ih1 this]
      · have hsome' : (zvol_find_loop tryOk name hash mode (i + 1) rest).1
            = some zv' := by
          simpa [zvol_find_loop, hmatch] using hsome
        obtain ⟨p1, p2, p3, p4, p5, p6⟩ := ih2 zv' hsome'
        refine ⟨p1, p2, p3, p4, ?_, ?_⟩
        · simp [zvol_find_loop, hmatch]
          exact Or.inr p5
        · intro v hv
          simp [zvol_find_loop, hmatch] at hv
          rcases hv with hv | hv
          · subst hv
            exact Or.inr hzv
          · exact p6 v hv
      · simp [zvol_find_loop, hmatch, trace_lock_order, List.erase_cons_head]
        exact ih3

/-- Claim C4: `zvol_find_by_name_hash` on a chain where the caller holds no
per-volume lock returns, on success, the matching volume with its quiesce
lock held in the requested mode and its state lock held, touching no other
volume's locks; on failure it returns `none` with the chain unchanged (no
lock held); and the event trace never blocks on a quiesce lock while holding
that volume's state lock (the state lock is dropped and re-taken around the
blocking acquisition). -/
theorem zvol_find_by_name_hash_lock_contract (tryOk : Nat → Bool)
    (name : String) (hash : Nat) (mode : RwMode) (vols : List FVol)
    (hinit : ∀ v ∈ vols, v.suspend_hold = RwMode.RW_NONE ∧
      v.state_hold = false) :
    ((zvol_find_by_name_hash tryOk name hash mode vols).1 = none →
       (zvol_find_by_name_hash tryOk name hash mode vols).2.1 = vols) ∧
    (∀ zv', (zvol_find_by_name_hash tryOk name hash mode vols).1 = some zv' →
       zv'.zv_hash = hash ∧ zv'.zv_name = name ∧
       zv'.suspend_hold = mode ∧ zv'.state_hold = true ∧
       zv' ∈ (zvol_find_by_name_hash tryOk name hash mode vols).2.1 ∧
       ∀ v ∈ (zvol_find_by_name_hash tryOk name hash mode vols).2.1,
         v = zv' ∨ (v.suspend_hold = RwMode.RW_NONE ∧ v.state_hold = false)) ∧
    trace_lock_order (zvol_find_by_name_hash tryOk name hash mode vols).2.2 []
      = true :=
  zvol_find_loop_spec tryOk name hash mode vols 0 hinit

/-- Witness for C4: a two-entry chain where the second entry matches and the
try-acquire fails, so the lookup goes through the drop-and-block path; the
returned volume holds the quiesce lock as writer and its state lock, and the
trace respects the ordering discipline. -/
theorem zvol_find_by_name_hash_lock_contract_witness :
    (∀ zv', (zvol_find_by_name_hash (fun _ => false) "p/v" 7 RwMode.RW_WRITER
        [⟨3, "p/w", RwMode.RW_NONE, false⟩, ⟨7, "p/v", RwMode.RW_NONE, false⟩]).1
          = some zv' →
      zv'.suspend_hold = RwMode.RW_WRITER ∧ zv'.state_hold = true) ∧
    trace_lock_order (zvol_find_by_name_hash (fun _ => false) "p/v" 7
        RwMode.RW_WRITER [⟨3, "p/w", RwMode.RW_NONE, false⟩,
        ⟨7, "p/v", RwMode.RW_NONE, false⟩]).2.2 [] = true := by
  have h := zvol_find_by_name_hash_lock_contract (fun _ => false) "p/v" 7
    RwMode.RW_WRITER
    [⟨3, "p/w", RwMode.RW_NONE, false⟩, ⟨7, "p/v", RwMode.RW_NONE, false⟩]
    (by decide)
  exact ⟨fun zv' hz => ⟨(h.2.1 zv' hz).2.2.1, (h.2.1 zv' hz).2.2.2.1⟩, h.2.2⟩

end Registry

namespace CdevRw

/-- `DMU_MAX_ACCESS` (64 MiB); the write loop transfers at most
`DMU_MAX_ACCESS >> 1` bytes per transaction. -/
def DMU_MAX_ACCESS : Nat := 64 * 1024 * 1024

/-- Per-iteration outcomes of the engine calls made by the write loop:
`dmu_tx_assign` and `dmu_write_uio_dnode` (0 = success). -/
structure WEnv where
  tx_err : Nat → Nat
  write_err : Nat → Nat

/-- Embedding of the `while` loop of `zvol_cdev_write` (zvol_os.c:932-953),
one fuel unit per iteration (each iteration transfers at least one byte, so
`fuel = resid` suffices).  `k` counts iterations for the oracle; each
iteration clips `bytes` to `volsize - off` ("don't write past the end"),
assigns a transaction, writes, logs and commits; an engine error breaks the
loop.  Returns the propagated error and the `(offset, length)` chunks
written. -/
def zvol_cdev_write_loop (env : WEnv) (volsize : Nat) :
    Nat → Nat → Nat → Nat → Nat × List (Nat × Nat)
| 0, _, _, _ => (0, [])
| fuel + 1, k, off, resid =>
  if 0 < resid ∧ off < volsize then
    let bytes := min (min resid (DMU_MAX_ACCESS / 2)) (volsize - off)
    if env.tx_err k ≠ 0 then (env.tx_err k, [])
    else if env.write_err k ≠ 0 then (env.write_err k, [(off, bytes)])
    else
      let r := zvol_cdev_write_loop env volsize fuel (k + 1) (off + bytes)
        (resid - bytes)
      (r.1, (off, bytes) :: r.2)
  else (0, [])

/-- Embedding of `zvol_cdev_write` (zvol_os.c:907-959): reject a non-empty
write whose signed offset is negative or strictly beyond the volume size with
`EIO`, then run the transfer loop. -/
def zvol_cdev_write (env : WEnv) (volsize : Nat) (loffset : Int)
    (resid : Nat) : Nat × List (Nat × Nat) :=
  if 0 < resid ∧ (loffset < 0 ∨ (volsize : Int) < loffset) then (EIO_, [])
  else zvol_cdev_write_loop env volsize resid 0 loffset.toNat resid

lemma zvol_cdev_write_loop_bounded (env : WEnv) (volsize : Nat) :
    ∀ (fuel k off resid : Nat),
      ∀ p ∈ (zvol_cdev_write_loop env volsize fuel k off resid).2,
        p.1 + p.2 ≤ volsize := by
  intro fuel
  induction fuel with
  | zero =>
    intro k off resid p hp
    simp [zvol_cdev_write_loop] at hp
  | succ n ih =>
    intro k off resid p hp
    simp only [zvol_cdev_write_loop] at hp
    split_ifs at hp with h1 h2 h3
    · simp at hp
    · simp at hp
      subst hp
      simp
      omega
    · simp at hp
      rcases hp with hp | hp
      · subst hp
        simp
        omega
      · exact ih (k + 1) _ _ p hp
    · simp at hp

/-- Counterexample to claim C5 as stated: a 512-byte character-device write
starting exactly at the volume size (4096) is not rejected — `zvol_cdev_write`
returns 0 having transferred nothing — although the claim requires a
positive-length request starting at or beyond the volume size to be rejected
with the out-of-range error (`EIO`). -/
theorem zvol_cdev_write_at_volsize_not_rejected :
    zvol_cdev_write ⟨fun _ => 0, fun _ => 0⟩ 4096 4096 512 = (0, []) ∧
    (0 : Nat) ≠ EIO_ := by
  constructor
  · decide
  · decide

/-- Claim C5 (amended): in the I/O-context path `zvol_dmu_ctx_init`, a fresh
context with positive length starting at or past `zv_volsize` is rejected
with `EIO` before any engine call, range lock or queue operation (the full
result shows only the entry suspend reference taken, no actions, no queue or
count change); a zero-length read context is not an error even past the end;
an in-range context is clipped so its extent ends at the volume size at most.
In the character-device write path the entry check rejects exactly the
negative or strictly-beyond offsets; a positive-length write starting exactly
at the volume size returns success transferring nothing; and every chunk the
loop writes lies within the volume. -/
theorem zvol_io_bounds (boot_ncpus : Nat) (env : Admission.CtxEnv)
    (zds : Admission.Zds) (s : Admission.ZvState) (wenv : WEnv)
    (volsize resid : Nat) (loffset : Int) :
    (zds.zds_retry = false → 0 < zds.zds_io_size →
      s.zv_volsize ≤ zds.zds_off →
      Admission.zvol_dmu_ctx_init boot_ncpus env zds s
        = ⟨{ s with zv_suspend_ref := s.zv_suspend_ref + 1 },
           { zds with zds_sync := zds.zds_sync ||
               (!zds.zds_reader && s.os_sync_always) }, EIO_, []⟩) ∧
    (zds.zds_retry = false → zds.zds_reader = true → zds.zds_io_size = 0 →
      s.zv_active < boot_ncpus →
      (Admission.zvol_dmu_ctx_init boot_ncpus ⟨0, false⟩ zds s).err = 0) ∧
    (zds.zds_retry = false →
      (zds.zds_reader = true ∨ s.zv_rdonly = false) →
      zds.zds_off < s.zv_volsize → s.zv_active < boot_ncpus →
      (Admission.zvol_dmu_ctx_init boot_ncpus env zds s).zds.zds_io_size
          = min zds.zds_io_size (s.zv_volsize - zds.zds_off) ∧
      zds.zds_off +
          (Admission.zvol_dmu_ctx_init boot_ncpus env zds s).zds.zds_io_size
        ≤ s.zv_volsize) ∧
    (0 < resid → (loffset < 0 ∨ (volsize : Int) < loffset) →
      zvol_cdev_write wenv volsize loffset resid = (EIO_, [])) ∧
    (0 < resid →
      zvol_cdev_write wenv volsize (volsize : Int) resid = (0, [])) ∧
    (∀ p ∈ (zvol_cdev_write wenv volsize loffset resid).2,
      p.1 + p.2 ≤ volsize) := by
  refine ⟨?_, ?_, ?_, ?_, ?_, ?_⟩
  · intro hretry hio hoff
    simp [Admission.zvol_dmu_ctx_init, hretry, hio, hoff]
  · intro hretry hrd hio hact
    have hmax : decide (boot_ncpus ≤ s.zv_active) = false := by
      simp
      omega
    simp [Admission.zvol_dmu_ctx_init, hretry, hrd, hio,
      Admission.zvol_dmu_max_active, hmax]
  · intro hretry hrw hoff hact
    have hmax : decide (boot_ncpus ≤ s.zv_active) = false := by
      simp
      omega
    have hnb : ¬ (0 < zds.zds_io_size ∧ s.zv_volsize ≤ zds.zds_off) :=
      fun hc => by omega
    have hmin : min zds.zds_io_size (s.zv_volsize - zds.zds_off)
        ≤ s.zv_volsize - zds.zds_off := Nat.min_le_right _ _
    cases hrd : zds.zds_reader with
    | true =>
      constructor <;>
        by_cases he : env.dmu_ctx_init_err = 0 <;>
        simp [Admission.zvol_dmu_ctx_init, hretry, hrd, he,
          Admission.zvol_dmu_max_active, hmax, hnb, Admission.zvol_dmu_err] <;>
        omega
    | false =>
      have hro : s.zv_rdonly = false := by
        rcases hrw with h | h
        · rw [hrd] at h
          cases h
        · exact h
      constructor <;>
        by_cases he : env.dmu_ctx_init_err = 0 <;>
        simp [Admission.zvol_dmu_ctx_init, hretry, hrd, hro, he,
          Admission.zvol_dmu_max_active, hmax, hnb, Admission.zvol_dmu_err] <;>
        omega
  · intro hr hoff
    simp [zvol_cdev_write, hr, hoff]
  · intro hr
    obtain ⟨m, rfl⟩ : ∃ m, resid = m + 1 := ⟨resid - 1, by omega⟩
    simp [zvol_cdev_write, zvol_cdev_write_loop]
  · intro p hp
    by_cases hrej : 0 < resid ∧ (loffset < 0 ∨ (volsize : Int) < loffset)
    · simp [zvol_cdev_write, hrej] at hp
    · simp only [zvol_cdev_write, if_neg hrej] at hp
      exact zvol_cdev_write_loop_bounded wenv volsize resid 0 loffset.toNat
        resid p hp

/-- Witness for C5 (amended): a fresh 512-byte write context at offset 8192
on a 4096-byte volume is rejected with `EIO` leaving the queue untouched, and
an in-range 8192-byte context at offset 0 on a 6144-byte volume is clipped to
6144 bytes. -/
theorem zvol_io_bounds_witness :
    Admission.zvol_dmu_ctx_init 2 ⟨0, false⟩ ⟨1, false, true, 8192, 512, false⟩
        ⟨4096, false, false, 0, [], 0⟩
      = ⟨⟨4096, false, false, 0, [], 1⟩, ⟨1, false, true, 8192, 512, false⟩,
         EIO_, []⟩ ∧
    (Admission.zvol_dmu_ctx_init 2 ⟨0, false⟩ ⟨1, false, true, 0, 8192, false⟩
        ⟨6144, false, false, 0, [], 0⟩).zds.zds_io_size = min 8192 (6144 - 0) := by
  constructor
  · exact (zvol_io_bounds 2 ⟨0, false⟩ ⟨1, false, true, 8192, 512, false⟩
      ⟨4096, false, false, 0, [], 0⟩ ⟨fun _ => 0, fun _ => 0⟩ 0 0 0).1
      rfl (by decide) (by decide)
  · exact ((zvol_io_bounds 2 ⟨0, false⟩ ⟨1, false, true, 0, 8192, false⟩
      ⟨6144, false, false, 0, [], 0⟩ ⟨fun _ => 0, fun _ => 0⟩ 0 0 0).2.2.1
      rfl (Or.inl rfl) (by decide) (by decide)).1

end CdevRw

namespace FreeRange

/-- GEOM bio commands reaching `zvol_geom_bio_sync` (reads and writes go
through `zvol_geom_bio_async` instead). -/
inductive BioCmd
| BIO_DELETE
| BIO_FLUSH
| BIO_OTHER
deriving DecidableEq

/-- Externally visible operations of the free-range paths, in program
order. -/
inductive Act
| ensure_zilog
| rangelock (off len : Nat) (writer : Bool)
| log_truncate (off len : Nat)
| tx_commit
| free_long_range (off len : Nat)
| commit_async
deriving DecidableEq

/-- Embedding of `zvol_geom_bio_sync` (zvol_os.c:670-729) under the suspend
lock (read mode).  `BIO_FLUSH` commits the WAL; `BIO_DELETE` takes the range
lock as writer and, when `dmu_tx_assign` succeeds (`tx_err = 0`), logs a
truncate, commits the transaction and frees `[off, off+len)` with no bounds
check, leaving `resid = 0`; the `bio_completed < bio_length && off > volsize`
check can therefore flag `EINVAL` only when the transaction assign failed.
(`dmu_free_long_range` itself is taken to succeed.) -/
def zvol_geom_bio_sync (volsize : Nat) (sync_always : Bool) (tx_err : Nat)
    (cmd : BioCmd) (off len : Nat) : Nat × List Act :=
  match cmd with
  | BioCmd.BIO_FLUSH => (0, [Act.ensure_zilog, Act.commit_async])
  | BioCmd.BIO_OTHER => (EOPNOTSUPP, [])
  | BioCmd.BIO_DELETE =>
    let base := [Act.ensure_zilog, Act.rangelock off len true]
    if tx_err ≠ 0 then
      let error := if 0 < len ∧ volsize < off then EINVAL else tx_err
      (error, base ++ (if sync_always then [Act.commit_async] else []))
    else
      (0, base ++ [Act.log_truncate off len, Act.tx_commit,
                   Act.free_long_range off len] ++
          (if sync_always then [Act.commit_async] else []))

/-- Embedding of the `DIOCGDELETE` case of `zvol_cdev_ioctl`
(zvol_os.c:1152-1186): misaligned, negative, out-of-range
(`offset >= zv_volsize`) or non-positive-length requests are rejected with
`EINVAL` before any lock, log or free operation.  (`dmu_free_long_range` is
taken to succeed.) -/
def zvol_cdev_ioctl_diocgdelete (volsize : Nat) (unmap_enabled : Bool)
    (sync_always : Bool) (tx_err : Nat) (offset length : Int) :
    Nat × List Act :=
  if unmap_enabled = false then (0, [])
  else if offset % (DEV_BSIZE : Int) ≠ 0 ∨ length % (DEV_BSIZE : Int) ≠ 0 ∨
      offset < 0 ∨ (volsize : Int) ≤ offset ∨ length ≤ 0 then
    (EINVAL, [])
  else
    let off := offset.toNat
    let len := length.toNat
    if tx_err ≠ 0 then
      (tx_err, [Act.ensure_zilog, Act.rangelock off len true])
    else
      (0, [Act.ensure_zilog, Act.rangelock off len true,
           Act.log_truncate off len, Act.tx_commit,
           Act.free_long_range off len] ++
          (if sync_always then [Act.commit_async] else []))

/-- Claim C6 (code-bug evidence): a GEOM `BIO_DELETE` over `[8192, 8704)` on
a volume of size 4096 — a range entirely beyond the end — is not rejected:
the code logs a truncate, frees the range and completes the bio with error 0.
The character-device `DIOCGDELETE` path rejects the same range with `EINVAL`
performing no operation, and the GEOM path's own `EINVAL` intent surfaces
only in the dead corner where the transaction assign fails (`tx_err = 7`). -/
theorem zvol_free_range_out_of_range_divergence :
    zvol_geom_bio_sync 4096 false 0 BioCmd.BIO_DELETE 8192 512
      = (0, [Act.ensure_zilog, Act.rangelock 8192 512 true,
             Act.log_truncate 8192 512, Act.tx_commit,
             Act.free_long_range 8192 512]) ∧
    zvol_cdev_ioctl_diocgdelete 4096 true false 0 8192 512 = (EINVAL, []) ∧
    (zvol_geom_bio_sync 4096 false 7 BioCmd.BIO_DELETE 8192 512).1 = EINVAL := by
  refine ⟨by decide, by decide, by decide⟩

end FreeRange

namespace LogWrite

/-- The three write-record forms of `itx_wr_state_t`: `WR_INDIRECT` logs a
reference to the synced data (the spec's "reference" form), `WR_COPIED`
embeds the data in the record at creation (the spec's "inline copy" form),
`WR_NEED_COPY` defers copying the data to WAL commit time. -/
inductive ItxWrState
| WR_INDIRECT
| WR_COPIED
| WR_NEED_COPY
deriving DecidableEq

/-- Tunable `zvol_immediate_write_sz` (zvol.c:582). -/
def zvol_immediate_write_sz : Nat := 32768

/-- Inputs `zvol_log_write` reads from the volume, the pool and the ZIL:
the log-bias policy, whether a separate log device exists, the volume block
size, the `zil_max_copied_data` bound, the outcome of the
`dmu_read_by_dnode` read-back at a given offset (`true` = failure), and
whether the ZIL is replaying. -/
structure LwEnv where
  logbias_throughput : Bool
  spa_has_slogs : Bool
  zv_volblocksize : Nat
  zil_max_copied_data : Nat
  readback_fail : Nat → Bool
  zil_replaying : Bool

/-- Record-form selection at the head of `zvol_log_write` (zvol.c:595-603):
`WR_INDIRECT` under throughput bias, or when there is no separate log device,
the write covers at least one block and the block size exceeds
`zvol_immediate_write_sz`; otherwise `WR_COPIED` for synchronous and
`WR_NEED_COPY` for asynchronous writes. -/
def zvol_log_write_state (env : LwEnv) (size : Nat) (sync : Bool) :
    ItxWrState :=
  if env.logbias_throughput = true then ItxWrState.WR_INDIRECT
  else if env.spa_has_slogs = false ∧ env.zv_volblocksize ≤ size ∧
      zvol_immediate_write_sz < env.zv_volblocksize then ItxWrState.WR_INDIRECT
  else if sync = true then ItxWrState.WR_COPIED
  else ItxWrState.WR_NEED_COPY

/-- The `while (size)` loop of `zvol_log_write` (zvol.c:605-641), one fuel
unit per record (each record covers at least one byte when
`zv_volblocksize > 0`, so `fuel = size` suffices).  Per record: a `WR_COPIED`
record larger than `zil_max_copied_data` degrades to `WR_NEED_COPY`; a
`WR_INDIRECT` record covers at most the rest of the current block
(`P2PHASE(offset, blocksize)` is `offset % blocksize`); a `WR_COPIED` record
whose read-back fails is rebuilt as `WR_NEED_COPY`.  Returns the
`(form, offset, length)` records in order. -/
def zvol_log_write_loop (env : LwEnv) (ws : ItxWrState) :
    Nat → Nat → Nat → List (ItxWrState × Nat × Nat)
| 0, _, _ => []
| fuel + 1, offset, size =>
  if size = 0 then []
  else
    let wr1 := if ws = ItxWrState.WR_COPIED ∧ env.zil_max_copied_data < size
               then ItxWrState.WR_NEED_COPY else ws
    let len := if wr1 = ItxWrState.WR_INDIRECT
               then min (env.zv_volblocksize - offset % env.zv_volblocksize)
                 size
               else size
    let wr2 := if wr1 = ItxWrState.WR_COPIED ∧ env.readback_fail offset = true
               then ItxWrState.WR_NEED_COPY else wr1
    (wr2, offset, len) ::
      zvol_log_write_loop env ws fuel (offset + len) (size - len)

/-- Embedding of `zvol_log_write` (zvol.c:584-642): nothing is logged while
the ZIL is replaying; otherwise the records of the write are built by the
loop with the selected form. -/
def zvol_log_write (env : LwEnv) (offset size : Nat) (sync : Bool) :
    List (ItxWrState × Nat × Nat) :=
  if env.zil_replaying = true then []
  else zvol_log_write_loop env (zvol_log_write_state env size sync) size
    offset size

lemma zvol_log_write_loop_zero (env : LwEnv) (ws : ItxWrState) :
    ∀ (fuel offset : Nat), zvol_log_write_loop env ws fuel offset 0 = [] := by
  intro fuel offset
  cases fuel with
  | zero => rfl
  | succ n => simp [zvol_log_write_loop]

lemma zvol_log_write_loop_indirect (env : LwEnv) :
    ∀ (fuel offset size : Nat),
      ∀ c ∈ zvol_log_write_loop env ItxWrState.WR_INDIRECT fuel offset size,
        c.1 = ItxWrState.WR_INDIRECT := by
  intro fuel
  induction fuel with
  | zero => intro offset size c hc; simp [zvol_log_write_loop] at hc
  | succ n ih =>
    intro offset size c hc
    by_cases hz : size = 0
    · simp [zvol_log_write_loop, hz] at hc
    · simp only [zvol_log_write_loop, if_neg hz] at hc
      simp at hc
      rcases hc with hc | hc
      · rw [hc]
      · exact ih _ _ c hc

/-- Counterexample to claim C7 as stated: a synchronous 65536-byte write —
well above the 32768-byte immediate-write threshold — on a latency-bias pool
with a separate log device is logged as a single inline copy (`WR_COPIED`),
not by reference (`WR_INDIRECT`) as the claim requires for writes larger
than the threshold. -/
theorem zvol_log_write_large_write_copied :
    zvol_log_write ⟨false, true, 4096, 1048576, fun _ => false, false⟩
        0 65536 true
      = [(ItxWrState.WR_COPIED, 0, 65536)] ∧
    ItxWrState.WR_COPIED ≠ ItxWrState.WR_INDIRECT := by
  exact ⟨by decide, by decide⟩

/-- Claim C7 (amended): with the ZIL not replaying, `zvol_log_write` chooses
the reference form (`WR_INDIRECT`, for every record of the write) exactly
under throughput log-bias, or when there is no separate log device, the
write covers at least one block and the block size exceeds the
immediate-write threshold; otherwise a synchronous write becomes a single
record that is an inline copy (`WR_COPIED`) unless the write exceeds
`zil_max_copied_data` or the read-back of its data fails, in which cases it
falls back to the deferred-copy form `WR_NEED_COPY` — not the reference
form — and an asynchronous write becomes a single deferred-copy record. -/
theorem zvol_log_write_form_selection (env : LwEnv) (offset size : Nat)
    (sync : Bool) (hrep : env.zil_replaying = false) (hsz : 0 < size) :
    ((env.logbias_throughput = true ∨
       (env.spa_has_slogs = false ∧ env.zv_volblocksize ≤ size ∧
        zvol_immediate_write_sz < env.zv_volblocksize)) →
      ∀ c ∈ zvol_log_write env offset size sync,
        c.1 = ItxWrState.WR_INDIRECT) ∧
    (env.logbias_throughput = false →
     ¬ (env.spa_has_slogs = false ∧ env.zv_volblocksize ≤ size ∧
        zvol_immediate_write_sz < env.zv_volblocksize) →
      (sync = true →
        zvol_log_write env offset size sync
          = [(if env.zil_max_copied_data < size ∨
                 env.readback_fail offset = true
              then ItxWrState.WR_NEED_COPY else ItxWrState.WR_COPIED,
              offset, size)]) ∧
      (sync = false →
        zvol_log_write env offset size sync
          = [(ItxWrState.WR_NEED_COPY, offset, size)])) := by
  constructor
  · intro hcond c hc
    have hstate : zvol_log_write_state env size sync
        = ItxWrState.WR_INDIRECT := by
      rcases hcond with h | h
      · simp [zvol_log_write_state, h]
      · by_cases ht : env.logbias_throughput = true <;>
          simp [zvol_log_write_state, ht, h]
    rw [zvol_log_write, if_neg (by simp [hrep]), hstate] at hc
    exact zvol_log_write_loop_indirect env size offset size c hc
  · intro ht hnc
    have hstate : ∀ sy : Bool, zvol_log_write_state env size sy
        = (if sy then ItxWrState.WR_COPIED else ItxWrState.WR_NEED_COPY) := by
      intro sy
      cases sy <;> simp [zvol_log_write_state, ht, hnc]
    obtain ⟨m, rfl⟩ : ∃ m, size = m + 1 := ⟨size - 1, by omega⟩
    constructor
    · intro hsy
      subst hsy
      rw [zvol_log_write, if_neg (by simp [hrep]), hstate]
      by_cases hmax : env.zil_max_copied_data < m + 1 <;>
        by_cases hrb : env.readback_fail offset = true <;>
        simp [zvol_log_write_loop, zvol_log_write_loop_zero, hmax, hrb]
    · intro hsy
      subst hsy
      rw [zvol_log_write, if_neg (by simp [hrep]), hstate]
      simp [zvol_log_write_loop, zvol_log_write_loop_zero]

/-- Witness for C7 (amended): a small (1000-byte) synchronous write on a
latency-bias pool with a separate log device is logged as one inline-copy
record. -/
theorem zvol_log_write_form_selection_witness :
    zvol_log_write ⟨false, true, 4096, 1048576, fun _ => false, false⟩
        0 1000 true
      = [(ItxWrState.WR_COPIED, 0, 1000)] := by
  have h := ((zvol_log_write_form_selection
      ⟨false, true, 4096, 1048576, fun _ => false, false⟩ 0 1000 true
      rfl (by decide)).2 rfl (by decide)).1 rfl
  simpa using h

end LogWrite

namespace Zil

/-- Caller's hold on the quiesce lock `zv_suspend_lock`. -/
inductive Hold
| unheld
| reader
| writer
deriving DecidableEq

/-- State seen by `zvol_ensure_zilog`: whether the WAL handle `zv_zilog`
exists, the `ZVOL_WRITTEN_TO` flag, and the caller's hold on
`zv_suspend_lock`. -/
structure EzState where
  zv_zilog : Bool
  written_to : Bool
  lock : Hold
deriving DecidableEq

/-- Embedding of `zvol_ensure_zilog` (zvol_os.c:1252-1275), entered with the
quiesce lock held as reader.  When the handle is absent, try `rw_tryupgrade`
(outcome `upgrade_ok`); if that fails, drop the lock and re-acquire it as
writer — during that window another flow may already have created the
handle, which `other_created` records — then re-check and create the handle
only if it is still absent, and `rw_downgrade` back to reader.  Returns the
state and whether this call created the handle. -/
def zvol_ensure_zilog (upgrade_ok other_created : Bool) (s : EzState) :
    EzState × Bool :=
  if s.zv_zilog then (s, false)
  else
    let s1 : EzState :=
      if upgrade_ok then { s with lock := Hold.writer }
      else { s with zv_zilog := other_created, lock := Hold.writer }
    if s1.zv_zilog then ({ s1 with lock := Hold.reader }, false)
    else ({ zv_zilog := true, written_to := true, lock := Hold.reader }, true)

/-- Claim C8: entered with the quiesce lock held as reader,
`zvol_ensure_zilog` returns with the WAL handle present and the quiesce lock
back in reader mode, whatever the upgrade outcome and whatever a concurrent
flow did during the drop-and-reacquire window; it creates the handle only if
the handle was absent at entry and still absent at the re-check under the
writer lock; and the operation is idempotent — a second call changes nothing
and never creates the handle a second time. -/
theorem zvol_ensure_zilog_lazy_init (upgrade_ok other_created u2 o2 : Bool)
    (s : EzState) (hlock : s.lock = Hold.reader) :
    (zvol_ensure_zilog upgrade_ok other_created s).1.zv_zilog = true ∧
    (zvol_ensure_zilog upgrade_ok other_created s).1.lock = Hold.reader ∧
    ((zvol_ensure_zilog upgrade_ok other_created s).2 = true →
      s.zv_zilog = false ∧ (upgrade_ok = true ∨ other_created = false)) ∧
    zvol_ensure_zilog u2 o2 (zvol_ensure_zilog upgrade_ok other_created s).1
      = ((zvol_ensure_zilog upgrade_ok other_created s).1, false) := by
  by_cases hz : s.zv_zilog = true <;>
    by_cases hu : upgrade_ok = true <;>
    by_cases ho : other_created = true <;>
    simp_all [zvol_ensure_zilog]

/-- Witness for C8: with the handle absent, a failed upgrade and no
concurrent creation, the call returns with the handle present and the lock
back in reader mode. -/
theorem zvol_ensure_zilog_lazy_init_witness :
    (zvol_ensure_zilog false false ⟨false, false, Hold.reader⟩).1.zv_zilog
        = true ∧
    (zvol_ensure_zilog false false ⟨false, false, Hold.reader⟩).1.lock
        = Hold.reader :=
  ⟨(zvol_ensure_zilog_lazy_init false false false false
      ⟨false, false, Hold.reader⟩ rfl).1,
   (zvol_ensure_zilog_lazy_init false false false false
      ⟨false, false, Hold.reader⟩ rfl).2.1⟩

end Zil

namespace Volsize

/-- Embedding of `zvol_check_volsize` (zvol.c:279-293) on an LP64 platform
(the `_ILP32` overflow branch is not compiled): `EINVAL` for a zero size or
one that is not an exact multiple of the block size, else success. -/
def zvol_check_volsize (volsize blocksize : Nat) : Nat :=
  if volsize = 0 then EINVAL
  else if volsize % blocksize ≠ 0 then EINVAL
  else 0

/-- Outcomes of the external calls made by `zvol_set_volsize`: the
`readonly` property lookup, whether a registered volume with a bound objset
was found, `dmu_objset_own` when one was not, `dmu_object_info`, the block
size it reports, and the engine outcome of `zvol_update_volsize`. -/
structure SvEnv where
  readonly_prop_err : Nat
  readonly : Bool
  zv_found : Bool
  zv_objset_present : Bool
  own_err : Nat
  objinfo_err : Nat
  doi_data_block_size : Nat
  update_err : Nat

/-- Embedding of the control flow of `zvol_set_volsize` (zvol.c:332-397)
around the persisted `size` ZAP entry `p`: a failed or positive `readonly`
lookup returns early; the objset is obtained (owned when the volume is
missing or closed, which can fail); `dmu_object_info` and
`zvol_check_volsize` run before `zvol_update_volsize`; only when every step
succeeds is the persisted size replaced by the requested one.  Returns the
error and the resulting persisted size. -/
def zvol_set_volsize (env : SvEnv) (volsize : Nat) (p : Nat) : Nat × Nat :=
  if env.readonly_prop_err ≠ 0 then (env.readonly_prop_err, p)
  else if env.readonly then (EROFS, p)
  else if (env.zv_found = false ∨ env.zv_objset_present = false) ∧
      env.own_err ≠ 0 then (env.own_err, p)
  else if env.objinfo_err ≠ 0 then (env.objinfo_err, p)
  else if zvol_check_volsize volsize env.doi_data_block_size ≠ 0 then
    (zvol_check_volsize volsize env.doi_data_block_size, p)
  else if env.update_err ≠ 0 then (env.update_err, p)
  else (0, volsize)

/-- Claim C10: `zvol_check_volsize` succeeds exactly on a non-zero size that
is an exact multiple of the block size and returns `EINVAL` otherwise; and
`zvol_set_volsize` checks before updating, so whenever the persisted size
changes, the new size is the requested one, non-zero and aligned to the
reported block size. -/
theorem zvol_check_volsize_guards_resize (volsize blocksize p : Nat)
    (env : SvEnv) (hbs : 0 < blocksize) :
    (zvol_check_volsize volsize blocksize = 0 ↔
      volsize ≠ 0 ∧ volsize % blocksize = 0) ∧
    (zvol_check_volsize volsize blocksize ≠ 0 →
      zvol_check_volsize volsize blocksize = EINVAL) ∧
    ((zvol_set_volsize env volsize p).2 ≠ p →
      (zvol_set_volsize env volsize p).2 = volsize ∧ volsize ≠ 0 ∧
        volsize % env.doi_data_block_size = 0) := by
  refine ⟨?_, ?_, ?_⟩
  · unfold zvol_check_volsize
    split_ifs with h1 h2
    · simp [h1, EINVAL]
    · simp [h1, h2, EINVAL]
    · simp [h1]
      omega
  · unfold zvol_check_volsize
    split_ifs <;> simp
  · intro hch
    unfold zvol_set_volsize at hch ⊢
    split_ifs at hch ⊢ with g1 g2 g3 g4 g5 g6
    all_goals simp_all
    have hc : zvol_check_volsize volsize env.doi_data_block_size = 0 := by
      omega
    unfold zvol_check_volsize at hc
    split_ifs at hc with h1 h2
    · simp [EINVAL] at hc
    · simp [EINVAL] at hc
    · exact ⟨h1, by omega⟩

/-- Witness for C10: block size 512, requested size 4096: the check accepts
exactly the aligned non-zero size, and a fully successful `zvol_set_volsize`
records 4096. -/
theorem zvol_check_volsize_guards_resize_witness :
    (zvol_check_volsize 4096 512 = 0 ↔ (4096 ≠ 0 ∧ 4096 % 512 = 0)) ∧
    (zvol_set_volsize ⟨0, false, true, true, 0, 0, 512, 0⟩ 4096 1024).2
        = 4096 :=
  ⟨(zvol_check_volsize_guards_resize 4096 512 1024
      ⟨0, false, true, true, 0, 0, 512, 0⟩ (by decide)).1,
   ((zvol_check_volsize_guards_resize 4096 512 1024
      ⟨0, false, true, true, 0, 0, 512, 0⟩ (by decide)).2.2 (by decide)).1⟩

end Volsize
